import Mathlib

/-!
Shallow embedding of the risk/position core of the repository:
position sizing and trailing-stop logic from src/position_manager.py,
the trailing-stop monitor of src/execution_client.py, and the paper-trading
fill simulator of src/backtester.py.  Python floats are modelled as exact
rationals; Python exceptions raised by the sizing code are modelled with
Except; per-symbol state of the trailing-stop maps is modelled as an
Option of the stop record (the maps hold at most one stop per symbol and
the update loops touch one symbol at a time).
-/

namespace PositionManager

/-- Embeds the TrailingStop dataclass of src/position_manager.py. -/
structure TrailingStop where
  activation_price : Option ℚ
  trail_percent : ℚ
  current_stop : ℚ
  high_water_mark : ℚ
  is_active : Bool
deriving DecidableEq

/-- Embeds the PositionSize dataclass of src/position_manager.py. -/
structure PositionSize where
  risk_percent : ℚ
  account_value : ℚ
  max_position_size : ℚ
  position_size : ℚ
  leverage : ℚ
deriving DecidableEq

/-- A Python runtime error that the sizing code can raise. -/
inductive PyError where
  | zeroDivisionError
deriving DecidableEq

/-- Python division: raises ZeroDivisionError on a zero divisor. -/
def pyDiv (a b : ℚ) : Except PyError ℚ :=
  if b = 0 then Except.error PyError.zeroDivisionError else Except.ok (a / b)

/-- Embeds PositionManager.calculate_position_size (lines 27-79 of
src/position_manager.py), including the unused distance_percent
computation, whose division can raise. -/
def calculate_position_size (account_value risk_percent entry_price stop_loss
    max_leverage max_position_percent : ℚ) : Except PyError PositionSize :=
  let risk_amount := account_value * risk_percent
  let price_distance := |entry_price - stop_loss|
  match pyDiv price_distance entry_price with
  | Except.error e => Except.error e
  | Except.ok _ =>
    match pyDiv risk_amount price_distance with
    | Except.error e => Except.error e
    | Except.ok base_position_size =>
      match pyDiv (base_position_size * entry_price)
          (account_value * max_position_percent) with
      | Except.error e => Except.error e
      | Except.ok required_leverage =>
        let leverage := min required_leverage max_leverage
        let position_size := base_position_size * leverage
        let max_position_size := account_value * max_position_percent * leverage
        Except.ok
          { risk_percent := risk_percent
            account_value := account_value
            max_position_size := max_position_size
            position_size := min position_size max_position_size
            leverage := leverage }

/-- Embeds PositionManager.set_trailing_stop (lines 81-106): the stop is
created active when activation_price is None or current_price is already
at or above it. -/
def set_trailing_stop (trail_percent current_price : ℚ)
    (activation_price : Option ℚ) : TrailingStop :=
  let is_active : Bool :=
    match activation_price with
    | none => true
    | some a => decide (a ≤ current_price)
  { activation_price := activation_price
    trail_percent := trail_percent
    current_stop := current_price * (1 - trail_percent)
    high_water_mark := current_price
    is_active := is_active }

/-- Embeds PositionManager.update_trailing_stop (lines 108-142) on one
stop record.  The Bool is true exactly when the Python code returns the
stop (the trailing stop was hit); the record is the stop after the
in-place mutations of the call. -/
def update_trailing_stop (stop : TrailingStop) (current_price : ℚ) :
    TrailingStop × Bool :=
  let stop1 :=
    match stop.is_active, stop.activation_price with
    | false, some a =>
      if a ≤ current_price then
        { stop with is_active := true, high_water_mark := current_price,
                    current_stop := current_price * (1 - stop.trail_percent) }
      else stop
    | _, _ => stop
  if stop1.is_active then
    let stop2 :=
      if stop1.high_water_mark < current_price then
        { stop1 with high_water_mark := current_price,
                     current_stop := current_price * (1 - stop1.trail_percent) }
      else stop1
    (stop2, decide (current_price ≤ stop2.current_stop))
  else (stop1, false)

/-- update_trailing_stop at the level of the per-symbol map entry:
a missing symbol is a no-op returning None. -/
def on_price (s : Option TrailingStop) (current_price : ℚ) :
    Option TrailingStop × Bool :=
  match s with
  | none => (none, false)
  | some stop =>
    let r := update_trailing_stop stop current_price
    (some r.1, r.2)

end PositionManager

namespace ExecutionClient

/-- Embeds the TrailingStop dataclass of src/execution_client.py (note:
no high-water-mark field; trail_percent is in percent units). -/
structure TrailingStop where
  symbol : String
  trail_percent : ℚ
  activation_price : Option ℚ
  current_stop : ℚ
  is_active : Bool
  side : String
deriving DecidableEq

/-- Embeds ExecutionClient._calculate_stop_price (lines 73-78). -/
def calculate_stop_price (current_price : ℚ) (stop : TrailingStop) : ℚ :=
  if stop.side = "long" then current_price * (1 - stop.trail_percent / 100)
  else current_price * (1 + stop.trail_percent / 100)

/-- Embeds ExecutionClient.set_trailing_stop (lines 95-117); the market
price the Python code fetches is passed in as current_price. -/
def set_trailing_stop (symbol : String) (trail_percent : ℚ) (side : String)
    (current_price : ℚ) (activation_offset : Option ℚ) : TrailingStop :=
  let activation_price : Option ℚ :=
    match activation_offset with
    | none => none
    | some off =>
      let offset_multiplier := 1 + off / 100
      some (if side = "long" then current_price * offset_multiplier
            else current_price / offset_multiplier)
  { symbol := symbol
    trail_percent := trail_percent
    activation_price := activation_price
    current_stop := calculate_stop_price current_price
      { symbol := symbol, trail_percent := trail_percent,
        activation_price := none, current_stop := 0,
        is_active := true, side := side }
    is_active := activation_price.isNone
    side := side }

/-- Embeds one symbol's iteration of ExecutionClient._update_trailing_stops
(lines 44-66) at a fetched price, stopping short of the _execute_stop
call: the Bool is true exactly when the code reaches _execute_stop. -/
def update_step (stop : TrailingStop) (current_price : ℚ) :
    TrailingStop × Bool :=
  let stop1 :=
    match stop.is_active, stop.activation_price with
    | false, some a =>
      if (stop.side = "long" ∧ a ≤ current_price) ∨
         (stop.side = "short" ∧ current_price ≤ a) then
        let stop' := { stop with is_active := true }
        { stop' with current_stop := calculate_stop_price current_price stop' }
      else stop
    | _, _ => stop
  if stop1.is_active then
    let new_stop := calculate_stop_price current_price stop1
    if stop1.side = "long" then
      if stop1.current_stop < new_stop then
        ({ stop1 with current_stop := new_stop }, false)
      else if current_price ≤ stop1.current_stop then (stop1, true)
      else (stop1, false)
    else
      if new_stop < stop1.current_stop then
        ({ stop1 with current_stop := new_stop }, false)
      else if stop1.current_stop ≤ current_price then (stop1, true)
      else (stop1, false)
  else (stop1, false)

/-- Outcome of ExecutionClient._execute_stop (lines 80-93): the close
succeeds, the close raises (caught, so the del is skipped), or
get_position returns no position (the stop is deleted without a close). -/
inductive GatewayOutcome where
  | closed
  | failed
  | noPosition
deriving DecidableEq

/-- One monitor tick for one symbol: update_step followed, on a hit, by
_execute_stop with the given gateway outcome.  First component: the
symbol's map entry after the tick; second: whether a close order was
submitted (execute_trade was called). -/
def tick (s : Option TrailingStop) (current_price : ℚ) (g : GatewayOutcome) :
    Option TrailingStop × Bool :=
  match s with
  | none => (none, false)
  | some stop =>
    let r := update_step stop current_price
    if r.2 then
      match g with
      | GatewayOutcome.closed => (none, true)
      | GatewayOutcome.failed => (some r.1, true)
      | GatewayOutcome.noPosition => (none, false)
    else (some r.1, false)

end ExecutionClient

namespace Backtester

/-- The portfolio dict of src/backtester.py, cash and stock entries. -/
structure Portfolio where
  cash : ℚ
  stock : ℚ
deriving DecidableEq

/-- Embeds the paper-trading branch of Backtester.execute_trade
(lines 66-88 of src/backtester.py).  Returns the updated portfolio and
the executed quantity; Python floor division on nonneg operands is the
rational floor. -/
def execute_trade (portfolio : Portfolio) (action : String) (quantity : ℕ)
    (current_price : ℚ) : Portfolio × ℚ :=
  if action = "buy" ∧ 0 < quantity then
    let cost : ℚ := quantity * current_price
    if cost ≤ portfolio.cash then
      ({ cash := portfolio.cash - cost, stock := portfolio.stock + quantity },
       (quantity : ℚ))
    else
      let max_quantity : ℤ := ⌊portfolio.cash / current_price⌋
      if 0 < max_quantity then
        ({ cash := portfolio.cash - max_quantity * current_price,
           stock := portfolio.stock + max_quantity }, (max_quantity : ℚ))
      else (portfolio, 0)
  else if action = "sell" ∧ 0 < quantity then
    let quantity2 : ℚ := min (quantity : ℚ) portfolio.stock
    if 0 < quantity2 then
      ({ cash := portfolio.cash + quantity2 * current_price,
         stock := portfolio.stock - quantity2 }, quantity2)
    else (portfolio, 0)
  else (portfolio, 0)

end Backtester

/-- Trace of current_stop values along a run of
PositionManager.update_trailing_stop over a price sequence. -/
def pm_trace (stop : PositionManager.TrailingStop) (prices : List ℚ) :
    List ℚ :=
  (List.scanl (fun s p => (PositionManager.update_trailing_stop s p).1)
    stop prices).map PositionManager.TrailingStop.current_stop

/-- Trace of current_stop values along a run of
ExecutionClient.update_step over a price sequence. -/
def ec_trace (stop : ExecutionClient.TrailingStop) (prices : List ℚ) :
    List ℚ :=
  (List.scanl (fun s p => (ExecutionClient.update_step s p).1)
    stop prices).map ExecutionClient.TrailingStop.current_stop

/-- A concrete ExecutionClient stop in the triggered-pending-close
situation: active, long, price sitting below the stop. -/
def retry_stop : ExecutionClient.TrailingStop :=
  { symbol := "Z", trail_percent := 2, activation_price := none,
    current_stop := 98, is_active := true, side := "long" }

/-- The ExecutionClient stop of scenario C: short side, trail percent 5,
created at fetched price 100 with activation offset 100/9, which puts the
activation price at 100 / (1 + (100/9)/100) = 90. -/
def c2_stop0 : ExecutionClient.TrailingStop :=
  ExecutionClient.set_trailing_stop "Y" 5 "short" 100 (some (100/9))

/-- Value of the sizing computation when no division is by zero. -/
theorem calculate_position_size_ok (a r e s l m : ℚ)
    (h1 : ¬ e = 0) (h2 : ¬ |e - s| = 0) (h3 : ¬ a * m = 0) :
    PositionManager.calculate_position_size a r e s l m
      = Except.ok
          { risk_percent := r, account_value := a,
            max_position_size := a * m * min (a * r / |e - s| * e / (a * m)) l,
            position_size :=
              min (a * r / |e - s| * min (a * r / |e - s| * e / (a * m)) l)
                (a * m * min (a * r / |e - s| * e / (a * m)) l),
            leverage := min (a * r / |e - s| * e / (a * m)) l } := by
  unfold PositionManager.calculate_position_size PositionManager.pyDiv
  simp only [if_neg h1, if_neg h2, if_neg h3]

/-- The sizing computation raises when the entry price is zero (the
distance_percent division). -/
theorem calculate_position_size_err1 (a r e s l m : ℚ) (h : e = 0) :
    PositionManager.calculate_position_size a r e s l m
      = Except.error PositionManager.PyError.zeroDivisionError := by
  unfold PositionManager.calculate_position_size PositionManager.pyDiv
  simp only [if_pos h]

/-- The sizing computation raises when the stop distance is zero (the
base_position_size division). -/
theorem calculate_position_size_err2 (a r e s l m : ℚ)
    (h1 : ¬ e = 0) (h : |e - s| = 0) :
    PositionManager.calculate_position_size a r e s l m
      = Except.error PositionManager.PyError.zeroDivisionError := by
  unfold PositionManager.calculate_position_size PositionManager.pyDiv
  simp only [if_neg h1, if_pos h]

/-- The sizing computation raises when account value times max position
percent is zero (the required_leverage division). -/
theorem calculate_position_size_err3 (a r e s l m : ℚ)
    (h1 : ¬ e = 0) (h2 : ¬ |e - s| = 0) (h : a * m = 0) :
    PositionManager.calculate_position_size a r e s l m
      = Except.error PositionManager.PyError.zeroDivisionError := by
  unfold PositionManager.calculate_position_size PositionManager.pyDiv
  simp only [if_neg h1, if_neg h2, if_pos h]

/-- C1: the claim says a stop created with an activation price is PENDING
regardless of how currentPrice compares to activationPrice.  The code
activates immediately when currentPrice is at or above the activation
price: with trailPercent = 1/50 in (0,1), currentPrice = 100 and
activationPrice = 90 the created stop is active. -/
theorem C1_counterexample :
    (0 : ℚ) < 1/50 ∧ (1/50 : ℚ) < 1 ∧
    (PositionManager.set_trailing_stop (1/50) 100 (some 90)).is_active
      = true :=
  ⟨by norm_num, by norm_num, by decide⟩

/-- C1 (amended): for PositionManager.set_trailing_stop with
trailPercent in (0,1), the created stop is pending exactly when an
activation price is supplied and currentPrice is strictly below it;
otherwise it is active.  In every case highWaterMark = currentPrice and
currentStop = currentPrice * (1 - trailPercent) (the manager has no side
parameter; there is no short-side formula). -/
theorem C1_set_characterization (trail_percent current_price : ℚ)
    (activation_price : Option ℚ)
    (h0 : 0 < trail_percent) (h1 : trail_percent < 1) :
    ((PositionManager.set_trailing_stop trail_percent current_price
        activation_price).is_active = false ↔
      ∃ a, activation_price = some a ∧ current_price < a) ∧
    (PositionManager.set_trailing_stop trail_percent current_price
        activation_price).high_water_mark = current_price ∧
    (PositionManager.set_trailing_stop trail_percent current_price
        activation_price).current_stop
      = current_price * (1 - trail_percent) := by
  refine ⟨?_, rfl, rfl⟩
  cases activation_price with
  | none => simp [PositionManager.set_trailing_stop]
  | some a =>
    simp [PositionManager.set_trailing_stop, decide_eq_false_iff_not, not_le]

/-- C1 (witness): a stop created at price 100 with activation price 200
is pending. -/
theorem C1_witness :
    (PositionManager.set_trailing_stop (1/50) 100 (some 200)).is_active
      = false :=
  ((C1_set_characterization (1/50) 100 (some 200) (by norm_num)
    (by norm_num)).1).mpr ⟨200, rfl, by norm_num⟩

/-- C2: the claim says set("Y", short, trailPercent = 0.05,
currentPrice = 100, activationPrice = 90) leaves the stop PENDING.  The
only set operation taking the activation price directly,
PositionManager.set_trailing_stop, creates it active (100 is at or above
90, and the manager has no short side). -/
theorem C2_counterexample :
    (0 : ℚ) < 1/20 ∧ (1/20 : ℚ) < 1 ∧
    (PositionManager.set_trailing_stop (1/20) 100 (some 90)).is_active
      = true :=
  ⟨by norm_num, by norm_num, by decide⟩

/-- C2 (amended): the short-side activation test lives in
ExecutionClient, whose trail percent is in percent units and whose stop
record has no high-water mark.  For the ExecutionClient stop of
scenario C (short, trail_percent = 5, activation price 90 created at
price 100): it starts pending, a tick at 95 leaves it pending and
unchanged, and a tick at 88 activates it with currentStop = 462/5 = 92.4
without triggering. -/
theorem C2_scenario_execution_client :
    c2_stop0.activation_price = some 90 ∧
    c2_stop0.is_active = false ∧
    (ExecutionClient.update_step c2_stop0 95).1 = c2_stop0 ∧
    (ExecutionClient.update_step c2_stop0 95).2 = false ∧
    (ExecutionClient.update_step c2_stop0 88).1.is_active = true ∧
    (ExecutionClient.update_step c2_stop0 88).1.current_stop = 462/5 ∧
    (ExecutionClient.update_step c2_stop0 88).2 = false := by
  norm_num [c2_stop0, ExecutionClient.set_trailing_stop,
    ExecutionClient.update_step, ExecutionClient.calculate_stop_price,
    show ("short" : String) ≠ "long" by decide]

/-- C3: the claim says invalid sizing inputs fail with ValidationError
and no result is produced.  The code has no validation: with
accountValue = -100 (non-positive) it returns a PositionSize normally. -/
theorem C3_counterexample :
    PositionManager.calculate_position_size (-100) (1/100) 2000 1900 5 (1/5)
      = Except.ok
          { risk_percent := 1/100, account_value := -100,
            max_position_size := -20, position_size := -20,
            leverage := 1 } := by
  norm_num [PositionManager.calculate_position_size, PositionManager.pyDiv]

/-- C3 (amended): calculate_position_size validates nothing.  It fails -
with a Python ZeroDivisionError, not a ValidationError or
InvalidStopLoss - exactly when entryPrice = 0, entryPrice =
stopLossPrice, or accountValue * maxPositionPercent = 0; every other
input, valid or not, produces a PositionSize. -/
theorem C3_no_validation (account_value risk_percent entry_price stop_loss
    max_leverage max_position_percent : ℚ) :
    (∃ e, PositionManager.calculate_position_size account_value risk_percent
        entry_price stop_loss max_leverage max_position_percent
        = Except.error e) ↔
      entry_price = 0 ∨ entry_price = stop_loss ∨
        account_value * max_position_percent = 0 := by
  constructor
  · rintro ⟨e1, he⟩
    by_contra hcon
    push_neg at hcon
    obtain ⟨hn1, hn2, hn3⟩ := hcon
    rw [calculate_position_size_ok _ _ _ _ _ _ hn1
      (by simp [abs_eq_zero, sub_eq_zero, hn2]) hn3] at he
    simp at he
  · intro h
    by_cases hn1 : entry_price = 0
    · exact ⟨_, calculate_position_size_err1 _ _ _ _ _ _ hn1⟩
    by_cases hn2 : |entry_price - stop_loss| = 0
    · exact ⟨_, calculate_position_size_err2 _ _ _ _ _ _ hn1 hn2⟩
    rcases h with h | h | h
    · exact absurd h hn1
    · exact absurd (by rw [sub_eq_zero.mpr h, abs_zero] : |entry_price - stop_loss| = 0) hn2
    · exact ⟨_, calculate_position_size_err3 _ _ _ _ _ _ hn1 hn2 h⟩

/-- C7: under the claimed preconditions the sizing computation succeeds
and its output satisfies leverage <= maxLeverage and positionSize <=
accountValue * maxPositionPercent * leverage. -/
theorem C7_size_bounds (account_value risk_percent entry_price stop_loss
    max_leverage max_position_percent : ℚ)
    (h1 : 0 < account_value) (h2 : 0 < entry_price)
    (h3 : 0 < risk_percent) (h4 : risk_percent ≤ 1)
    (h5 : 0 < max_leverage)
    (h6 : 0 < max_position_percent) (h7 : max_position_percent ≤ 1)
    (h8 : entry_price ≠ stop_loss) :
    ∃ r, PositionManager.calculate_position_size account_value risk_percent
        entry_price stop_loss max_leverage max_position_percent
        = Except.ok r
      ∧ r.leverage ≤ max_leverage
      ∧ r.position_size
          ≤ account_value * max_position_percent * r.leverage := by
  have hd : ¬ |entry_price - stop_loss| = 0 := by
    simp [abs_eq_zero, sub_eq_zero, h8]
  have hm : ¬ account_value * max_position_percent = 0 :=
    ne_of_gt (mul_pos h1 h6)
  exact ⟨_, calculate_position_size_ok _ _ _ _ _ _ h2.ne' hd hm,
    min_le_right _ _, min_le_right _ _⟩

/-- C7 (witness): scenario A of the spec, accountValue = 100000,
riskPercent = 1/100, entryPrice = 2000, stopLoss = 1900,
maxLeverage = 5, maxPositionPercent = 1/5. -/
theorem C7_witness :
    ∃ r, PositionManager.calculate_position_size 100000 (1/100) 2000 1900
        5 (1/5) = Except.ok r
      ∧ r.leverage ≤ 5 ∧ r.position_size ≤ 100000 * (1/5) * r.leverage :=
  C7_size_bounds 100000 (1/100) 2000 1900 5 (1/5) (by norm_num)
    (by norm_num) (by norm_num) (by norm_num) (by norm_num) (by norm_num)
    (by norm_num) (by norm_num)

/-- Scanl traces are chains for any step that preserves an invariant and
relates consecutive observations. -/
theorem chain_of_scanl {σ : Type} (f : σ → ℚ → σ) (v : σ → ℚ)
    (P : σ → Prop) (R : ℚ → ℚ → Prop)
    (hstep : ∀ s p, P s → P (f s p) ∧ R (v s) (v (f s p))) :
    ∀ (prices : List ℚ) (s : σ), P s →
      List.Chain' R ((List.scanl f s prices).map v) := by
  intro prices
  induction prices with
  | nil =>
    intro s _
    simp
  | cons p ps ih =>
    intro s hs
    obtain ⟨hP, hv⟩ := hstep s p hs
    rw [List.scanl_cons, List.singleton_append, List.map_cons]
    refine List.chain'_cons'.mpr ⟨?_, ih _ hP⟩
    intro y hy
    have hhead : ((List.scanl f (f s p) ps).map v).head?
        = some (v (f s p)) := by
      cases ps <;> simp [List.scanl]
    rw [hhead, Option.mem_some_iff] at hy
    exact hy ▸ hv

/-- One update of an active PositionManager stop keeps it active, keeps
the trail percent, keeps current_stop tied to the high-water mark, and
never lowers current_stop (given trail percent below 1). -/
theorem pm_step_active (stop : PositionManager.TrailingStop) (p : ℚ)
    (ht1 : stop.trail_percent < 1) (ha : stop.is_active = true)
    (hw : stop.current_stop
      = stop.high_water_mark * (1 - stop.trail_percent)) :
    (PositionManager.update_trailing_stop stop p).1.is_active = true ∧
    (PositionManager.update_trailing_stop stop p).1.trail_percent
      = stop.trail_percent ∧
    (PositionManager.update_trailing_stop stop p).1.current_stop
      = (PositionManager.update_trailing_stop stop p).1.high_water_mark
        * (1 - stop.trail_percent) ∧
    stop.current_stop
      ≤ (PositionManager.update_trailing_stop stop p).1.current_stop := by
  rcases stop with ⟨ap, tp, cs, hwm, ia⟩
  dsimp only at ht1 ha hw ⊢
  subst ha
  by_cases hh : hwm < p
  · have hred : PositionManager.update_trailing_stop ⟨ap, tp, cs, hwm, true⟩ p
        = (⟨ap, tp, p * (1 - tp), p, true⟩, decide (p ≤ p * (1 - tp))) := by
      cases ap <;> simp [PositionManager.update_trailing_stop, hh]
    rw [hred]
    refine ⟨rfl, rfl, rfl, ?_⟩
    rw [hw]
    exact mul_le_mul_of_nonneg_right hh.le (by linarith)
  · have hred : PositionManager.update_trailing_stop ⟨ap, tp, cs, hwm, true⟩ p
        = (⟨ap, tp, cs, hwm, true⟩, decide (p ≤ cs)) := by
      cases ap <;> simp [PositionManager.update_trailing_stop, hh]
    rw [hred]
    exact ⟨rfl, rfl, hw, le_refl _⟩

/-- One update of an active ExecutionClient stop keeps it active, keeps
the side, never lowers a long stop's current_stop and never raises a
short one's. -/
theorem ec_step_mono (stop : ExecutionClient.TrailingStop) (p : ℚ)
    (ha : stop.is_active = true) :
    (ExecutionClient.update_step stop p).1.is_active = true ∧
    (ExecutionClient.update_step stop p).1.side = stop.side ∧
    (stop.side = "long" →
      stop.current_stop
        ≤ (ExecutionClient.update_step stop p).1.current_stop) ∧
    (stop.side ≠ "long" →
      (ExecutionClient.update_step stop p).1.current_stop
        ≤ stop.current_stop) := by
  rcases stop with ⟨sym, tp, ap, cs, ia, side⟩
  dsimp only at ha ⊢
  subst ha
  by_cases hside : side = "long"
  · subst hside
    by_cases hlt : cs < p * (1 - tp / 100)
    · have hred : ExecutionClient.update_step ⟨sym, tp, ap, cs, true, "long"⟩ p
          = (⟨sym, tp, ap, p * (1 - tp / 100), true, "long"⟩, false) := by
        cases ap <;>
          simp [ExecutionClient.update_step,
            ExecutionClient.calculate_stop_price, hlt]
      rw [hred]
      exact ⟨rfl, rfl, fun _ => hlt.le, fun h => absurd rfl h⟩
    · by_cases hpc : p ≤ cs
      · have hred : ExecutionClient.update_step ⟨sym, tp, ap, cs, true, "long"⟩ p
            = (⟨sym, tp, ap, cs, true, "long"⟩, true) := by
          cases ap <;>
            simp [ExecutionClient.update_step,
              ExecutionClient.calculate_stop_price, hlt, hpc]
        rw [hred]
        exact ⟨rfl, rfl, fun _ => le_refl _, fun h => absurd rfl h⟩
      · have hred : ExecutionClient.update_step ⟨sym, tp, ap, cs, true, "long"⟩ p
            = (⟨sym, tp, ap, cs, true, "long"⟩, false) := by
          cases ap <;>
            simp [ExecutionClient.update_step,
              ExecutionClient.calculate_stop_price, hlt, hpc]
        rw [hred]
        exact ⟨rfl, rfl, fun _ => le_refl _, fun h => absurd rfl h⟩
  · by_cases hlt : p * (1 + tp / 100) < cs
    · have hred : ExecutionClient.update_step ⟨sym, tp, ap, cs, true, side⟩ p
          = (⟨sym, tp, ap, p * (1 + tp / 100), true, side⟩, false) := by
        cases ap <;>
          simp [ExecutionClient.update_step,
            ExecutionClient.calculate_stop_price, hside, hlt]
      rw [hred]
      exact ⟨rfl, rfl, fun h => absurd h hside, fun _ => hlt.le⟩
    · by_cases hpc : cs ≤ p
      · have hred : ExecutionClient.update_step ⟨sym, tp, ap, cs, true, side⟩ p
            = (⟨sym, tp, ap, cs, true, side⟩, true) := by
          cases ap <;>
            simp [ExecutionClient.update_step,
              ExecutionClient.calculate_stop_price, hside, hlt, hpc]
        rw [hred]
        exact ⟨rfl, rfl, fun h => absurd h hside, fun _ => le_refl _⟩
      · have hred : ExecutionClient.update_step ⟨sym, tp, ap, cs, true, side⟩ p
            = (⟨sym, tp, ap, cs, true, side⟩, false) := by
          cases ap <;>
            simp [ExecutionClient.update_step,
              ExecutionClient.calculate_stop_price, hside, hlt, hpc]
        rw [hred]
        exact ⟨rfl, rfl, fun h => absurd h hside, fun _ => le_refl _⟩

/-- C4: for every finite price sequence fed to a stop while ACTIVE with
trailPercent in (0,1), the trace of currentStop values is non-decreasing
for a long stop (PositionManager's long-only stop, given its ratchet
shape invariant, and ExecutionClient's long side) and non-increasing for
a short stop (ExecutionClient). -/
theorem C4_ratchet (stop : PositionManager.TrailingStop)
    (estop : ExecutionClient.TrailingStop) (prices eprices : List ℚ)
    (ht0 : 0 < stop.trail_percent) (ht1 : stop.trail_percent < 1)
    (ha : stop.is_active = true)
    (hw : stop.current_stop
      = stop.high_water_mark * (1 - stop.trail_percent))
    (hea : estop.is_active = true) :
    List.Chain' (fun a b => a ≤ b) (pm_trace stop prices) ∧
    (estop.side = "long" →
      List.Chain' (fun a b => a ≤ b) (ec_trace estop eprices)) ∧
    (estop.side = "short" →
      List.Chain' (fun a b => b ≤ a) (ec_trace estop eprices)) := by
  refine ⟨?_, ?_, ?_⟩
  · unfold pm_trace
    exact chain_of_scanl _ PositionManager.TrailingStop.current_stop
      (fun s => s.is_active = true ∧ s.trail_percent < 1 ∧
        s.current_stop = s.high_water_mark * (1 - s.trail_percent))
      (fun a b => a ≤ b)
      (fun s p hs => by
        obtain ⟨k1, k2, k3, k4⟩ := pm_step_active s p hs.2.1 hs.1 hs.2.2
        refine ⟨⟨k1, ?_, ?_⟩, k4⟩
        · rw [k2]
          exact hs.2.1
        · rw [k2]
          exact k3)
      prices stop ⟨ha, ht1, hw⟩
  · intro hside
    unfold ec_trace
    exact chain_of_scanl _ ExecutionClient.TrailingStop.current_stop
      (fun s => s.is_active = true ∧ s.side = "long")
      (fun a b => a ≤ b)
      (fun s p hs => by
        obtain ⟨k1, k2, k3, _⟩ := ec_step_mono s p hs.1
        exact ⟨⟨k1, k2.trans hs.2⟩, k3 hs.2⟩)
      eprices estop ⟨hea, hside⟩
  · intro hside
    unfold ec_trace
    exact chain_of_scanl _ ExecutionClient.TrailingStop.current_stop
      (fun s => s.is_active = true ∧ s.side = "short")
      (fun a b => b ≤ a)
      (fun s p hs => by
        obtain ⟨k1, k2, _, k4⟩ := ec_step_mono s p hs.1
        exact ⟨⟨k1, k2.trans hs.2⟩,
          k4 (fun hcon => absurd (hs.2 ▸ hcon) (by decide))⟩)
      eprices estop ⟨hea, hside⟩

/-- C4 (witness): concrete ratchet runs over the price list [110, 105]
for an active PositionManager stop created at 100 with trail 1/50 and an
active ExecutionClient long stop created at 100 with trail percent 2. -/
theorem C4_witness :
    List.Chain' (fun a b => a ≤ b)
      (pm_trace (PositionManager.set_trailing_stop (1/50) 100 none)
        [110, 105]) ∧
    ((ExecutionClient.set_trailing_stop "X" 2 "long" 100 none).side
        = "long" →
      List.Chain' (fun a b => a ≤ b)
        (ec_trace (ExecutionClient.set_trailing_stop "X" 2 "long" 100 none)
          [110, 105])) ∧
    ((ExecutionClient.set_trailing_stop "X" 2 "long" 100 none).side
        = "short" →
      List.Chain' (fun a b => b ≤ a)
        (ec_trace (ExecutionClient.set_trailing_stop "X" 2 "long" 100 none)
          [110, 105])) :=
  C4_ratchet _ _ [110, 105] [110, 105]
    (by norm_num [PositionManager.set_trailing_stop])
    (by norm_num [PositionManager.set_trailing_stop])
    (by decide)
    (by norm_num [PositionManager.set_trailing_stop])
    (by decide)

/-- PositionManager.update_trailing_stop returns the stop exactly when,
after the activation and high-water-mark updates of the call, the stop
is active and the price is at or below the updated current_stop. -/
theorem pm_trigger_iff (stop : PositionManager.TrailingStop) (p : ℚ) :
    (PositionManager.update_trailing_stop stop p).2 = true ↔
      ((PositionManager.update_trailing_stop stop p).1.is_active = true ∧
        p ≤ (PositionManager.update_trailing_stop stop p).1.current_stop)
    := by
  rcases stop with ⟨ap, tp, cs, hwm, ia⟩
  cases ia with
  | true =>
    by_cases hh : hwm < p
    · have hred : PositionManager.update_trailing_stop
          ⟨ap, tp, cs, hwm, true⟩ p
          = (⟨ap, tp, p * (1 - tp), p, true⟩,
             decide (p ≤ p * (1 - tp))) := by
        cases ap <;> simp [PositionManager.update_trailing_stop, hh]
      rw [hred]
      simp
    · have hred : PositionManager.update_trailing_stop
          ⟨ap, tp, cs, hwm, true⟩ p
          = (⟨ap, tp, cs, hwm, true⟩, decide (p ≤ cs)) := by
        cases ap <;> simp [PositionManager.update_trailing_stop, hh]
      rw [hred]
      simp
  | false =>
    cases ap with
    | none =>
      have hred : PositionManager.update_trailing_stop
          ⟨none, tp, cs, hwm, false⟩ p
          = (⟨none, tp, cs, hwm, false⟩, false) := by
        simp [PositionManager.update_trailing_stop]
      rw [hred]
      simp
    | some a =>
      by_cases hac : a ≤ p
      · have hred : PositionManager.update_trailing_stop
            ⟨some a, tp, cs, hwm, false⟩ p
            = (⟨some a, tp, p * (1 - tp), p, true⟩,
               decide (p ≤ p * (1 - tp))) := by
          simp [PositionManager.update_trailing_stop, hac]
        rw [hred]
        simp
      · have hred : PositionManager.update_trailing_stop
            ⟨some a, tp, cs, hwm, false⟩ p
            = (⟨some a, tp, cs, hwm, false⟩, false) := by
          simp [PositionManager.update_trailing_stop, hac]
        rw [hred]
        simp

/-- The ExecutionClient monitor reaches _execute_stop exactly when,
after the activation and ratchet updates of the tick, the stop is active
and the price has crossed the updated current_stop unfavorably (at or
below it for a long stop, at or above it otherwise), for a positive
trail percent and price. -/
theorem ec_trigger_iff (stop : ExecutionClient.TrailingStop) (p : ℚ)
    (ht : 0 < stop.trail_percent) (hp : 0 < p) :
    (ExecutionClient.update_step stop p).2 = true ↔
      ((ExecutionClient.update_step stop p).1.is_active = true ∧
        (if stop.side = "long" then
          p ≤ (ExecutionClient.update_step stop p).1.current_stop
        else (ExecutionClient.update_step stop p).1.current_stop ≤ p))
    := by
  rcases stop with ⟨sym, tp, ap, cs, ia, side⟩
  dsimp only at ht ⊢
  cases ia with
  | true =>
    by_cases hside : side = "long"
    · subst hside
      by_cases hlt : cs < p * (1 - tp / 100)
      · have hred : ExecutionClient.update_step
            ⟨sym, tp, ap, cs, true, "long"⟩ p
            = (⟨sym, tp, ap, p * (1 - tp / 100), true, "long"⟩, false)
            := by
          cases ap <;> simp [ExecutionClient.update_step,
            ExecutionClient.calculate_stop_price, hlt]
        rw [hred]
        have harith : ¬ p ≤ p * (1 - tp / 100) := by nlinarith
        simp [harith]
      · by_cases hpc : p ≤ cs
        · have hred : ExecutionClient.update_step
              ⟨sym, tp, ap, cs, true, "long"⟩ p
              = (⟨sym, tp, ap, cs, true, "long"⟩, true) := by
            cases ap <;> simp [ExecutionClient.update_step,
              ExecutionClient.calculate_stop_price, hlt, hpc]
          rw [hred]
          simp [hpc]
        · have hred : ExecutionClient.update_step
              ⟨sym, tp, ap, cs, true, "long"⟩ p
              = (⟨sym, tp, ap, cs, true, "long"⟩, false) := by
            cases ap <;> simp [ExecutionClient.update_step,
              ExecutionClient.calculate_stop_price, hlt, hpc]
          rw [hred]
          simp [hpc]
    · by_cases hlt : p * (1 + tp / 100) < cs
      · have hred : ExecutionClient.update_step
            ⟨sym, tp, ap, cs, true, side⟩ p
            = (⟨sym, tp, ap, p * (1 + tp / 100), true, side⟩, false) := by
          cases ap <;> simp [ExecutionClient.update_step,
            ExecutionClient.calculate_stop_price, hside, hlt]
        rw [hred]
        have harith : ¬ p * (1 + tp / 100) ≤ p := by nlinarith
        simp [hside, harith]
      · by_cases hpc : cs ≤ p
        · have hred : ExecutionClient.update_step
              ⟨sym, tp, ap, cs, true, side⟩ p
              = (⟨sym, tp, ap, cs, true, side⟩, true) := by
            cases ap <;> simp [ExecutionClient.update_step,
              ExecutionClient.calculate_stop_price, hside, hlt, hpc]
          rw [hred]
          simp [hside, hpc]
        · have hred : ExecutionClient.update_step
              ⟨sym, tp, ap, cs, true, side⟩ p
              = (⟨sym, tp, ap, cs, true, side⟩, false) := by
            cases ap <;> simp [ExecutionClient.update_step,
              ExecutionClient.calculate_stop_price, hside, hlt, hpc]
          rw [hred]
          simp [hside, hpc]
  | false =>
    cases ap with
    | none =>
      have hred : ExecutionClient.update_step
          ⟨sym, tp, none, cs, false, side⟩ p
          = (⟨sym, tp, none, cs, false, side⟩, false) := by
        simp [ExecutionClient.update_step]
      rw [hred]
      simp
    | some a =>
      by_cases hcond : (side = "long" ∧ a ≤ p) ∨ (side = "short" ∧ p ≤ a)
      · by_cases hside : side = "long"
        · subst hside
          have hap : a ≤ p := by
            rcases hcond with ⟨_, h⟩ | ⟨hfalse, _⟩
            · exact h
            · exact absurd hfalse (by decide)
          have harith : ¬ p ≤ p * (1 - tp / 100) := by nlinarith
          have hred : ExecutionClient.update_step
              ⟨sym, tp, some a, cs, false, "long"⟩ p
              = (⟨sym, tp, some a, p * (1 - tp / 100), true, "long"⟩,
                 false) := by
            simp [ExecutionClient.update_step,
              ExecutionClient.calculate_stop_price, hap, harith]
          rw [hred]
          simp [harith]
        · have hshort : side = "short" := by
            rcases hcond with ⟨h1, _⟩ | ⟨h1, _⟩
            · exact absurd h1 hside
            · exact h1
          subst hshort
          have hpa : p ≤ a := by
            rcases hcond with ⟨hfalse, _⟩ | ⟨_, h⟩
            · exact absurd hfalse (by decide)
            · exact h
          have harith : ¬ p * (1 + tp / 100) ≤ p := by nlinarith
          have hred : ExecutionClient.update_step
              ⟨sym, tp, some a, cs, false, "short"⟩ p
              = (⟨sym, tp, some a, p * (1 + tp / 100), true, "short"⟩,
                 false) := by
            simp [ExecutionClient.update_step,
              ExecutionClient.calculate_stop_price, hpa, harith,
              show ("short" : String) ≠ "long" by decide]
          rw [hred]
          simp [harith, show ("short" : String) ≠ "long" by decide]
      · have hred : ExecutionClient.update_step
            ⟨sym, tp, some a, cs, false, side⟩ p
            = (⟨sym, tp, some a, cs, false, side⟩, false) := by
          simp [ExecutionClient.update_step, hcond]
        rw [hred]
        simp

/-- C5: no trigger is emitted while a stop is pending, and a trigger is
emitted exactly when, after the call's updates, the stop is active and
the price is at or below the updated currentStop for a long stop (at or
above it for a short stop): PositionManager unconditionally,
ExecutionClient for a positive trail percent and price. -/
theorem C5_trigger (stop : PositionManager.TrailingStop)
    (estop : ExecutionClient.TrailingStop) (p q : ℚ)
    (ht : 0 < estop.trail_percent) (hq : 0 < q) :
    ((PositionManager.update_trailing_stop stop p).2 = true ↔
      ((PositionManager.update_trailing_stop stop p).1.is_active = true ∧
        p ≤ (PositionManager.update_trailing_stop stop p).1.current_stop))
    ∧
    ((ExecutionClient.update_step estop q).2 = true ↔
      ((ExecutionClient.update_step estop q).1.is_active = true ∧
        (if estop.side = "long" then
          q ≤ (ExecutionClient.update_step estop q).1.current_stop
        else (ExecutionClient.update_step estop q).1.current_stop ≤ q)))
    :=
  ⟨pm_trigger_iff stop p, ec_trigger_iff estop q ht hq⟩

/-- C5 (witness): the trigger characterization applied to a concrete
PositionManager stop created at 100 with trail 1/50 and the concrete
active ExecutionClient long stop at current_stop 98, both at price 90.
-/
theorem C5_witness :
    ((PositionManager.update_trailing_stop
        (PositionManager.set_trailing_stop (1/50) 100 none) 90).2 = true ↔
      ((PositionManager.update_trailing_stop
          (PositionManager.set_trailing_stop (1/50) 100 none) 90).1.is_active
          = true ∧
        (90 : ℚ) ≤ (PositionManager.update_trailing_stop
          (PositionManager.set_trailing_stop (1/50) 100 none)
          90).1.current_stop)) ∧
    ((ExecutionClient.update_step retry_stop 90).2 = true ↔
      ((ExecutionClient.update_step retry_stop 90).1.is_active = true ∧
        (if retry_stop.side = "long" then
          (90 : ℚ) ≤ (ExecutionClient.update_step retry_stop 90).1.current_stop
        else (ExecutionClient.update_step retry_stop 90).1.current_stop
          ≤ (90 : ℚ)))) :=
  C5_trigger (PositionManager.set_trailing_stop (1/50) 100 none)
    retry_stop 90 90 (by norm_num [retry_stop]) (by norm_num)

/-- C6: the claim says a trigger moves the stop to a terminal state and
removes it, so get returns absent and later onPrice calls are no-ops.
In PositionManager a stop created at 100 with trail 1/50 triggers at 90,
yet it stays in the map and the very next call at 90 triggers again. -/
theorem C6_counterexample :
    (PositionManager.on_price
      (some (PositionManager.set_trailing_stop (1/50) 100 none)) 90).2
      = true ∧
    (PositionManager.on_price
      (some (PositionManager.set_trailing_stop (1/50) 100 none)) 90).1
      ≠ none ∧
    (PositionManager.on_price
      ((PositionManager.on_price
        (some (PositionManager.set_trailing_stop (1/50) 100 none)) 90).1)
      90).2 = true := by
  refine ⟨?_, ?_, ?_⟩ <;>
    norm_num [PositionManager.on_price, PositionManager.update_trailing_stop,
      PositionManager.set_trailing_stop] <;>
    exact Option.some_ne_none _

/-- C6 (amended): PositionManager never removes a stop on trigger — the
caller must; its onPrice always keeps the symbol's entry.  The removal
behavior of the claim lives in ExecutionClient: when the tick reaches
_execute_stop and the gateway close succeeds, the symbol is deleted from
the map, and a tick for a deleted symbol is a no-op that emits
nothing. -/
theorem C6_removal (stop : PositionManager.TrailingStop)
    (estop : ExecutionClient.TrailingStop) (p q : ℚ)
    (g : ExecutionClient.GatewayOutcome)
    (hhit : (ExecutionClient.update_step estop q).2 = true) :
    (PositionManager.on_price (some stop) p).1
      = some (PositionManager.update_trailing_stop stop p).1 ∧
    ExecutionClient.tick (some estop) q
      ExecutionClient.GatewayOutcome.closed = (none, true) ∧
    ExecutionClient.tick none q g = (none, false) := by
  refine ⟨rfl, ?_, rfl⟩
  simp [ExecutionClient.tick, hhit]

/-- C6 (witness): the concrete triggered ExecutionClient stop at price
90 with a successful gateway close is removed from the map. -/
theorem C6_witness :
    ExecutionClient.tick (some retry_stop) 90
      ExecutionClient.GatewayOutcome.closed = (none, true) :=
  (C6_removal (PositionManager.set_trailing_stop (1/50) 100 none)
    retry_stop 90 90 ExecutionClient.GatewayOutcome.closed
    (by norm_num [ExecutionClient.update_step,
      ExecutionClient.calculate_stop_price, retry_stop])).2.1

/-- A stop that triggers at a price without changing its record retries
forever under a failing gateway: the failing tick is the identity on the
map entry and submits a close order every time. -/
theorem retry_tick_spec (estop : ExecutionClient.TrailingStop) (q : ℚ)
    (hfix : ExecutionClient.update_step estop q = (estop, true)) :
    ExecutionClient.tick (some estop) q
      ExecutionClient.GatewayOutcome.failed = (some estop, true) ∧
    ∀ n : ℕ,
      (fun s => (ExecutionClient.tick s q
        ExecutionClient.GatewayOutcome.failed).1)^[n] (some estop)
        = some estop := by
  have h1 : ExecutionClient.tick (some estop) q
      ExecutionClient.GatewayOutcome.failed = (some estop, true) := by
    simp [ExecutionClient.tick, hfix]
  refine ⟨h1, ?_⟩
  intro n
  induction n with
  | zero => rfl
  | succ n ih =>
    rw [Function.iterate_succ_apply', ih, h1]

/-- C9: the claim says a close that keeps failing is retried at most a
bounded number of times, after which the symbol is dropped.  For the
concrete triggered stop retry_stop at price 90 under a persistently
failing gateway, there is no tick index beyond which close attempts
stop: the code retries forever. -/
theorem C9_counterexample :
    ¬ ∃ N : ℕ, ∀ n : ℕ, N ≤ n →
      (ExecutionClient.tick
        ((fun s => (ExecutionClient.tick s 90
          ExecutionClient.GatewayOutcome.failed).1)^[n] (some retry_stop))
        90 ExecutionClient.GatewayOutcome.failed).2 = false := by
  rintro ⟨N, hN⟩
  have hfix : ExecutionClient.update_step retry_stop 90
      = (retry_stop, true) := by
    norm_num [ExecutionClient.update_step,
      ExecutionClient.calculate_stop_price, retry_stop]
  obtain ⟨h1, hiter⟩ := retry_tick_spec retry_stop 90 hfix
  have := hN N (le_refl N)
  rw [hiter N, h1] at this
  exact absurd this (by simp)

/-- C9 (amended): on a GatewayError the del is skipped, so the stop is
retained and the close is retried on every subsequent tick with no
attempt bound and no terminal failure event; the symbol is dropped only
when a close succeeds or when no position exists (in which case no close
is submitted). -/
theorem C9_retry_unbounded (estop : ExecutionClient.TrailingStop) (q : ℚ)
    (hfix : ExecutionClient.update_step estop q = (estop, true)) :
    ExecutionClient.tick (some estop) q
      ExecutionClient.GatewayOutcome.failed = (some estop, true) ∧
    (∀ n : ℕ,
      (fun s => (ExecutionClient.tick s q
        ExecutionClient.GatewayOutcome.failed).1)^[n] (some estop)
        = some estop) ∧
    ExecutionClient.tick (some estop) q
      ExecutionClient.GatewayOutcome.closed = (none, true) ∧
    ExecutionClient.tick (some estop) q
      ExecutionClient.GatewayOutcome.noPosition = (none, false) := by
  obtain ⟨h1, h2⟩ := retry_tick_spec estop q hfix
  refine ⟨h1, h2, ?_, ?_⟩ <;> simp [ExecutionClient.tick, hfix]

/-- C9 (witness): the retry behavior applied to the concrete triggered
stop retry_stop at price 90. -/
theorem C9_witness :
    ExecutionClient.tick (some retry_stop) 90
      ExecutionClient.GatewayOutcome.failed = (some retry_stop, true) ∧
    (∀ n : ℕ,
      (fun s => (ExecutionClient.tick s 90
        ExecutionClient.GatewayOutcome.failed).1)^[n] (some retry_stop)
        = some retry_stop) ∧
    ExecutionClient.tick (some retry_stop) 90
      ExecutionClient.GatewayOutcome.closed = (none, true) ∧
    ExecutionClient.tick (some retry_stop) 90
      ExecutionClient.GatewayOutcome.noPosition = (none, false) :=
  C9_retry_unbounded retry_stop 90
    (by norm_num [ExecutionClient.update_step,
      ExecutionClient.calculate_stop_price, retry_stop])

/-- A buy fill under nonnegative cash and positive price executes
min(quantity, floor(cash / price)) units. -/
theorem execute_trade_buy (portfolio : Backtester.Portfolio)
    (quantity : ℕ) (price : ℚ)
    (hc : 0 ≤ portfolio.cash) (hp : 0 < price) :
    Backtester.execute_trade portfolio "buy" quantity price
      = ({ cash := portfolio.cash
             - min (quantity : ℚ) ((⌊portfolio.cash / price⌋ : ℤ) : ℚ)
               * price,
           stock := portfolio.stock
             + min (quantity : ℚ) ((⌊portfolio.cash / price⌋ : ℤ) : ℚ) },
         min (quantity : ℚ) ((⌊portfolio.cash / price⌋ : ℤ) : ℚ)) := by
  rcases portfolio with ⟨c, s⟩
  dsimp only at hc ⊢
  have hfl0 : (0 : ℤ) ≤ ⌊c / price⌋ :=
    Int.floor_nonneg.mpr (div_nonneg hc hp.le)
  have hfl0q : (0 : ℚ) ≤ ((⌊c / price⌋ : ℤ) : ℚ) := by exact_mod_cast hfl0
  by_cases hq : 0 < quantity
  · by_cases hcost : (quantity : ℚ) * price ≤ c
    · have hqle : (quantity : ℚ) ≤ ((⌊c / price⌋ : ℤ) : ℚ) := by
        have h1 : (quantity : ℚ) ≤ c / price := (le_div_iff hp).mpr hcost
        have h2 : (quantity : ℤ) ≤ ⌊c / price⌋ :=
          Int.le_floor.mpr (by exact_mod_cast h1)
        exact_mod_cast h2
      have hmin : min (quantity : ℚ) ((⌊c / price⌋ : ℤ) : ℚ)
          = (quantity : ℚ) := min_eq_left hqle
      simp [Backtester.execute_trade, hq, hcost, hmin]
    · have hfle : ((⌊c / price⌋ : ℤ) : ℚ) ≤ (quantity : ℚ) := by
        have h1 : c / price < (quantity : ℚ) := by
          rw [div_lt_iff hp]
          linarith [not_le.mp hcost]
        exact le_trans (Int.floor_le _) h1.le
      have hmin : min (quantity : ℚ) ((⌊c / price⌋ : ℤ) : ℚ)
          = ((⌊c / price⌋ : ℤ) : ℚ) := min_eq_right hfle
      by_cases hpos : 0 < ⌊c / price⌋
      · simp [Backtester.execute_trade, hq, hcost, hpos, hmin]
      · have hz : ⌊c / price⌋ = 0 := le_antisymm (not_lt.mp hpos) hfl0
        simp [Backtester.execute_trade, hq, hcost, hpos, hmin, hz]
  · have hq0 : quantity = 0 := Nat.eq_zero_of_not_pos hq
    subst hq0
    simp [Backtester.execute_trade, min_eq_left hfl0q, hfl0,
      show ("buy" : String) ≠ "sell" by decide]

/-- A sell fill under nonnegative stock executes min(quantity, stock)
units. -/
theorem execute_trade_sell (portfolio : Backtester.Portfolio)
    (quantity : ℕ) (price : ℚ) (hs : 0 ≤ portfolio.stock) :
    Backtester.execute_trade portfolio "sell" quantity price
      = ({ cash := portfolio.cash
             + min (quantity : ℚ) portfolio.stock * price,
           stock := portfolio.stock - min (quantity : ℚ) portfolio.stock },
         min (quantity : ℚ) portfolio.stock) := by
  rcases portfolio with ⟨c, s⟩
  dsimp only at hs ⊢
  by_cases hq : 0 < quantity
  · by_cases hpos : 0 < min (quantity : ℚ) s
    · simp [Backtester.execute_trade, hq, hpos,
        show ("sell" : String) ≠ "buy" by decide]
    · have hmin : min (quantity : ℚ) s = 0 :=
        le_antisymm (not_lt.mp hpos) (le_min (Nat.cast_nonneg _) hs)
      simp [Backtester.execute_trade, hq, hpos, hmin,
        show ("sell" : String) ≠ "buy" by decide]
  · have hq0 : quantity = 0 := Nat.eq_zero_of_not_pos hq
    subst hq0
    simp [Backtester.execute_trade, min_eq_left hs, hs,
      show ("sell" : String) ≠ "buy" by decide]

/-- Any action other than buy and sell is a no-op fill of size 0. -/
theorem execute_trade_other (portfolio : Backtester.Portfolio)
    (action : String) (quantity : ℕ) (price : ℚ)
    (hb : action ≠ "buy") (hsell : action ≠ "sell") :
    Backtester.execute_trade portfolio action quantity price
      = (portfolio, 0) := by
  simp [Backtester.execute_trade, hb, hsell]

/-- C8: for every well-formed portfolio and positive price, a buy fills
min(quantity, floor(cash/price)) units, a sell fills min(quantity,
stock) units, any other action is a no-op fill of size 0, and in
particular from cash = 1000, stock = 0 a buy of 50 at price 25 fills 40
leaving cash = 0, stock = 40. -/
theorem C8_fill_policy (portfolio : Backtester.Portfolio) (action : String)
    (quantity : ℕ) (price : ℚ)
    (hc : 0 ≤ portfolio.cash) (hs : 0 ≤ portfolio.stock) (hp : 0 < price) :
    (action = "buy" →
      Backtester.execute_trade portfolio action quantity price
        = ({ cash := portfolio.cash
               - min (quantity : ℚ) ((⌊portfolio.cash / price⌋ : ℤ) : ℚ)
                 * price,
             stock := portfolio.stock
               + min (quantity : ℚ) ((⌊portfolio.cash / price⌋ : ℤ) : ℚ) },
           min (quantity : ℚ) ((⌊portfolio.cash / price⌋ : ℤ) : ℚ))) ∧
    (action = "sell" →
      Backtester.execute_trade portfolio action quantity price
        = ({ cash := portfolio.cash
               + min (quantity : ℚ) portfolio.stock * price,
             stock := portfolio.stock
               - min (quantity : ℚ) portfolio.stock },
           min (quantity : ℚ) portfolio.stock)) ∧
    (action ≠ "buy" → action ≠ "sell" →
      Backtester.execute_trade portfolio action quantity price
        = (portfolio, 0)) ∧
    Backtester.execute_trade { cash := 1000, stock := 0 } "buy" 50 25
      = ({ cash := 0, stock := 40 }, 40) := by
  refine ⟨?_, ?_, ?_, ?_⟩
  · rintro rfl
    exact execute_trade_buy portfolio quantity price hc hp
  · rintro rfl
    exact execute_trade_sell portfolio quantity price hs
  · intro hb hsell
    exact execute_trade_other portfolio action quantity price hb hsell
  · norm_num [Backtester.execute_trade,
      show ("buy" : String) ≠ "sell" by decide]

/-- C8 (witness): the fill policy applied to the concrete scenario
portfolio cash = 1000, stock = 0, buying 50 at price 25. -/
theorem C8_witness :
    Backtester.execute_trade { cash := 1000, stock := 0 } "buy" 50 25
      = ({ cash := 0, stock := 40 }, 40) :=
  (C8_fill_policy { cash := 1000, stock := 0 } "buy" 50 25 (by norm_num)
    (by norm_num) (by norm_num)).2.2.2

/-- C10: every paper-trading fill preserves the portfolio's total value
at the fill price and keeps cash and stock nonnegative. -/
theorem C10_portfolio_invariant (portfolio : Backtester.Portfolio)
    (action : String) (quantity : ℕ) (price : ℚ)
    (hc : 0 ≤ portfolio.cash) (hs : 0 ≤ portfolio.stock) (hp : 0 < price) :
    (Backtester.execute_trade portfolio action quantity price).1.cash
        + (Backtester.execute_trade portfolio action quantity price).1.stock
          * price
      = portfolio.cash + portfolio.stock * price ∧
    0 ≤ (Backtester.execute_trade portfolio action quantity price).1.cash ∧
    0 ≤ (Backtester.execute_trade portfolio action quantity price).1.stock
    := by
  by_cases hb : action = "buy"
  · subst hb
    rw [execute_trade_buy portfolio quantity price hc hp]
    dsimp only
    have hF0 : 0 ≤ min (quantity : ℚ) ((⌊portfolio.cash / price⌋ : ℤ) : ℚ)
      := le_min (Nat.cast_nonneg _)
        (by exact_mod_cast Int.floor_nonneg.mpr (div_nonneg hc hp.le))
    have hFc : min (quantity : ℚ) ((⌊portfolio.cash / price⌋ : ℤ) : ℚ)
        * price ≤ portfolio.cash := by
      have h1 : min (quantity : ℚ) ((⌊portfolio.cash / price⌋ : ℤ) : ℚ)
          ≤ portfolio.cash / price :=
        le_trans (min_le_right _ _) (Int.floor_le _)
      calc min (quantity : ℚ) ((⌊portfolio.cash / price⌋ : ℤ) : ℚ) * price
          ≤ portfolio.cash / price * price :=
            mul_le_mul_of_nonneg_right h1 hp.le
        _ = portfolio.cash := div_mul_cancel₀ _ hp.ne'
    exact ⟨by ring, by linarith, by linarith⟩
  · by_cases hsell : action = "sell"
    · subst hsell
      rw [execute_trade_sell portfolio quantity price hs]
      dsimp only
      have hF0 : 0 ≤ min (quantity : ℚ) portfolio.stock :=
        le_min (Nat.cast_nonneg _) hs
      have hFs : min (quantity : ℚ) portfolio.stock ≤ portfolio.stock :=
        min_le_right _ _
      have hFp : 0 ≤ min (quantity : ℚ) portfolio.stock * price :=
        mul_nonneg hF0 hp.le
      exact ⟨by ring, by linarith, by linarith⟩
    · rw [execute_trade_other portfolio action quantity price hb hsell]
      exact ⟨rfl, hc, hs⟩

/-- C10 (witness): the invariant applied to the concrete scenario
portfolio cash = 1000, stock = 0, buying 50 at price 25. -/
theorem C10_witness :
    (Backtester.execute_trade { cash := 1000, stock := 0 } "buy" 50 25).1.cash
        + (Backtester.execute_trade
            { cash := 1000, stock := 0 } "buy" 50 25).1.stock * 25
      = (1000 : ℚ) + 0 * 25 ∧
    0 ≤ (Backtester.execute_trade
      { cash := 1000, stock := 0 } "buy" 50 25).1.cash ∧
    0 ≤ (Backtester.execute_trade
      { cash := 1000, stock := 0 } "buy" 50 25).1.stock :=
  C10_portfolio_invariant { cash := 1000, stock := 0 } "buy" 50 25
    (by norm_num) (by norm_num) (by norm_num)
